import Mathlib

/-!
Shallow embedding of the mumo-comics content core: the comic repository
(`src/lib/comics.ts`), the MDX filename/slug helpers (`getMDXFiles`/
`extractSlugFromFilename`), the frontmatter validation schema, and the RSS
feed generator with its companion validator.

Modelling conventions:
* JavaScript numbers used as timestamps are modelled as `Int` (milliseconds
  since the Unix epoch); `new Date(s).getTime()` on a publish-date string is
  modelled by `dateVal`, which parses the ISO 8601 subset accepted by the
  code's own validation schema and maps unparsable strings to `0` (the code
  only ever sorts validated records, where dates parse).
* `String.prototype.localeCompare` on slugs is modelled as code-point
  comparison (slugs are restricted to `[a-z0-9-]`).
* `Array.prototype.sort` with a consistent comparator is modelled by the
  stable `List.insertionSort`.
* Thrown errors and `try`/`catch` are modelled with `Except String`.
* `Math.floor(Math.random() * comics.length)` is modelled by an explicit
  index argument.
* JS string lengths are modelled as `String.length` (code-point count).
-/

/-- One decimal digit as a character, used by the date formatter. -/
def digitChar (n : Nat) : Char :=
  if n % 10 = 0 then '0' else if n % 10 = 1 then '1' else if n % 10 = 2 then '2'
  else if n % 10 = 3 then '3' else if n % 10 = 4 then '4' else if n % 10 = 5 then '5'
  else if n % 10 = 6 then '6' else if n % 10 = 7 then '7' else if n % 10 = 8 then '8'
  else '9'

/-- Decimal digits of a natural number, most significant first. -/
def natChars (n : Nat) : List Char :=
  if n < 10 then [digitChar n]
  else natChars (n / 10) ++ [digitChar (n % 10)]
termination_by n
decreasing_by exact Nat.div_lt_self (by omega) (by omega)

/-- Decimal digits of `n`, left-padded with zeros to width `w`. -/
def natCharsPad (w n : Nat) : List Char :=
  let ds := natChars n
  List.replicate (w - ds.length) '0' ++ ds

/-- String form of `natCharsPad`. -/
def padStr (w n : Nat) : String := String.mk (natCharsPad w n)

/-- Weekday names as used by `Date.prototype.toUTCString`. -/
def weekdayNames : List String := ["Sun", "Mon", "Tue", "Wed", "Thu", "Fri", "Sat"]

/-- Month names as used by `Date.prototype.toUTCString`. -/
def monthNames : List String :=
  ["Jan", "Feb", "Mar", "Apr", "May", "Jun", "Jul", "Aug", "Sep", "Oct", "Nov", "Dec"]

/-- Proleptic-Gregorian civil date (year, month 1-12, day 1-31) from a count
of days since 1970-01-01 (Howard Hinnant's `civil_from_days`). -/
def civilFromDays (z0 : Int) : Int × Nat × Nat :=
  let z : Int := z0 + 719468
  let era : Int := z.fdiv 146097
  let doe : Nat := (z - era * 146097).toNat
  let yoe : Nat := (doe - doe / 1460 + doe / 36524 - doe / 146096) / 365
  let y : Int := (yoe : Int) + era * 400
  let doy : Nat := doe - (365 * yoe + yoe / 4 - yoe / 100)
  let mp : Nat := (5 * doy + 2) / 153
  let d : Nat := doy - (153 * mp + 2) / 5 + 1
  let m : Nat := if mp < 10 then mp + 3 else mp - 9
  (if m ≤ 2 then y + 1 else y, m, d)

/-- Days since 1970-01-01 of a civil date (Howard Hinnant's `days_from_civil`). -/
def daysFromCivil (y0 : Int) (m d : Nat) : Int :=
  let y : Int := if m ≤ 2 then y0 - 1 else y0
  let era : Int := y.fdiv 400
  let yoe : Nat := (y - era * 400).toNat
  let doy : Nat := (153 * (if m > 2 then m - 3 else m + 9) + 2) / 5 + d - 1
  let doe : Nat := yoe * 365 + yoe / 4 - yoe / 100 + doy
  era * 146097 + (doe : Int) - 719468

/-- `formatRSSDate` from `lib/rss.ts`: `new Date(ms).toUTCString()`, the
RFC 822 form "Mon, 15 Jan 2024 10:00:00 GMT". -/
def formatRSSDate (ms : Int) : String :=
  let days : Int := ms.fdiv 86400000
  let msOfDay : Nat := (ms - days * 86400000).toNat
  let ymd := civilFromDays days
  let wd : Nat := ((days + 4).emod 7).toNat
  let yearStr : String :=
    if ymd.1 < 0 then "-" ++ padStr 4 (-ymd.1).toNat else padStr 4 ymd.1.toNat
  (weekdayNames.getD wd "Sun") ++ ", " ++ padStr 2 ymd.2.2 ++ " " ++
    (monthNames.getD (ymd.2.1 - 1) "Jan") ++ " " ++ yearStr ++ " " ++
    padStr 2 (msOfDay / 3600000) ++ ":" ++ padStr 2 (msOfDay % 3600000 / 60000) ++ ":" ++
    padStr 2 (msOfDay % 60000 / 1000) ++ " GMT"

/-- Numeric value of a decimal digit character. -/
def dval (c : Char) : Nat := c.toNat - 48

/-- Whether a year is a Gregorian leap year. -/
def isLeap (y : Int) : Bool := y.emod 4 = 0 && (y.emod 100 ≠ 0 || y.emod 400 = 0)

/-- Number of days in a month (1-12) of a given year. -/
def daysInMonth (y : Int) (m : Nat) : Nat :=
  [31, if isLeap y then 29 else 28, 31, 30, 31, 30, 31, 31, 30, 31, 30, 31].getD (m - 1) 31

/-- Epoch milliseconds of a UTC civil datetime, after range checks, mirroring
`Date.parse` on ISO 8601 input (valid components or `NaN`). -/
def mkUTC (y : Int) (mo d h mi se msec : Nat) : Option Int :=
  if 1 ≤ mo && mo ≤ 12 && 1 ≤ d && d ≤ daysInMonth y mo && h < 24 && mi < 60 && se < 60 then
    some (daysFromCivil y mo d * 86400000 + h * 3600000 + mi * 60000 + se * 1000 + msec)
  else none

/-- Parser for the ISO 8601 subset the code feeds to `new Date(...)`:
`YYYY-MM-DD`, `YYYY-MM-DDTHH:MM:SSZ`, or `YYYY-MM-DDTHH:MM:SS.mmmZ`,
interpreted as UTC. Anything else is `none` (JS `NaN`). -/
def parseISO (s : String) : Option Int :=
  match s.data with
  | [y1, y2, y3, y4, '-', m1, m2, '-', d1, d2] =>
    if [y1, y2, y3, y4, m1, m2, d1, d2].all Char.isDigit then
      mkUTC (((dval y1 * 10 + dval y2) * 10 + dval y3) * 10 + dval y4)
        (dval m1 * 10 + dval m2) (dval d1 * 10 + dval d2) 0 0 0 0
    else none
  | [y1, y2, y3, y4, '-', m1, m2, '-', d1, d2, 'T', h1, h2, ':', n1, n2, ':', s1, s2, 'Z'] =>
    if [y1, y2, y3, y4, m1, m2, d1, d2, h1, h2, n1, n2, s1, s2].all Char.isDigit then
      mkUTC (((dval y1 * 10 + dval y2) * 10 + dval y3) * 10 + dval y4)
        (dval m1 * 10 + dval m2) (dval d1 * 10 + dval d2)
        (dval h1 * 10 + dval h2) (dval n1 * 10 + dval n2) (dval s1 * 10 + dval s2) 0
    else none
  | [y1, y2, y3, y4, '-', m1, m2, '-', d1, d2, 'T', h1, h2, ':', n1, n2, ':', s1, s2,
     '.', f1, f2, f3, 'Z'] =>
    if [y1, y2, y3, y4, m1, m2, d1, d2, h1, h2, n1, n2, s1, s2, f1, f2, f3].all Char.isDigit then
      mkUTC (((dval y1 * 10 + dval y2) * 10 + dval y3) * 10 + dval y4)
        (dval m1 * 10 + dval m2) (dval d1 * 10 + dval d2)
        (dval h1 * 10 + dval h2) (dval n1 * 10 + dval n2) (dval s1 * 10 + dval s2)
        ((dval f1 * 10 + dval f2) * 10 + dval f3)
    else none
  | _ => none

/-- `new Date(s).getTime()` on a publish-date string; unparsable strings map
to `0` (the repository only sorts validated records, whose dates parse). -/
def dateVal (s : String) : Int := (parseISO s).getD 0

/-- The frontmatter of one comic, as in `types/comic.ts`. -/
structure ComicFrontmatter where
  title : String
  slug : String
  publishDate : String
  synopsis : String
  tags : List String
  readingTime : Int
  coverImage : String
  author : Option String
  featured : Option Bool
deriving DecidableEq, Inhabited

/-- One comic record, as in `types/comic.ts`. -/
structure Comic where
  frontmatter : ComicFrontmatter
  content : String
  slug : String
deriving DecidableEq, Inhabited

/-- Lexicographic comparison of character lists by code point. -/
def charListLt : List Char → List Char → Bool
  | [], [] => false
  | [], _ :: _ => true
  | _ :: _, [] => false
  | a :: as, b :: bs =>
    if a.toNat < b.toNat then true
    else if b.toNat < a.toNat then false
    else charListLt as bs

/-- Lexicographic strict order on strings, by code point. -/
def strLt (a b : String) : Bool := charListLt a.data b.data

/-- Lexicographic less-or-equal on strings, by code point. -/
def strLe (a b : String) : Prop := strLt a b = true ∨ a = b

/-- Sign-valued model of `a.slug.localeCompare(b.slug)` (code-point order). -/
def slugCmp (a b : String) : Int := if strLt a b then -1 else if a = b then 0 else 1

/-- `compareByDateAndSlug` from `lib/comics.ts`: publish date descending,
slug ascending as tiebreaker. -/
def compareByDateAndSlug (a b : Comic) : Int :=
  let dateA := dateVal a.frontmatter.publishDate
  let dateB := dateVal b.frontmatter.publishDate
  if dateA ≠ dateB then dateB - dateA else slugCmp a.slug b.slug

/-- The comparator as a boolean "less-or-equal", as consumed by a sort. -/
def comicLE (a b : Comic) : Bool := compareByDateAndSlug a b ≤ 0

/-- `comics.sort(compareByDateAndSlug)` from `getAllComics`: a stable sort
by the canonical comparator (modelled by stable insertion sort). -/
def sortedComics (comics : List Comic) : List Comic :=
  List.insertionSort (fun a b => comicLE a b = true) comics

/-- `getAllComics` from `lib/comics.ts`, as a function of the content-source
outcome (the parsed records, or an adapter failure): sorts the records, and
rewraps any failure as "Failed to retrieve comics: ...". -/
def getAllComics (src : Except String (List Comic)) : Except String (List Comic) :=
  match src with
  | .ok comics => .ok (sortedComics comics)
  | .error e => .error ("Failed to retrieve comics: " ++ e)

/-- `getComicBySlug` from `lib/comics.ts`: first record of the sorted
collection whose slug matches, `none` otherwise; failures are rewrapped. -/
def getComicBySlug (src : Except String (List Comic)) (slug : String) :
    Except String (Option Comic) :=
  match getAllComics src with
  | .ok comics => .ok (comics.find? (fun comic => comic.slug == slug))
  | .error e => .error ("Failed to retrieve comic by slug \"" ++ slug ++ "\": " ++ e)

/-- `getLatestComic` from `lib/comics.ts`: head of the sorted collection;
an empty collection raises "No comics available", which the catch block
rethrows unwrapped, while any other failure is rewrapped. -/
def getLatestComic (src : Except String (List Comic)) : Except String Comic :=
  let attempt : Except String Comic :=
    match getAllComics src with
    | .error e => .error e
    | .ok [] => .error "No comics available"
    | .ok (c :: _) => .ok c
  match attempt with
  | .ok c => .ok c
  | .error e =>
    if e = "No comics available" then .error e
    else .error ("Failed to retrieve latest comic: " ++ e)

/-- `getComicsByTag` from `lib/comics.ts`: the sorted collection filtered to
records whose `tags` contains the tag; failures are rewrapped. -/
def getComicsByTag (src : Except String (List Comic)) (tag : String) :
    Except String (List Comic) :=
  match getAllComics src with
  | .ok comics => .ok (comics.filter (fun comic => comic.frontmatter.tags.contains tag))
  | .error e => .error ("Failed to retrieve comics by tag \"" ++ tag ++ "\": " ++ e)

/-- `getRandomComic` from `lib/comics.ts`, with the value of
`Math.floor(Math.random() * comics.length)` passed as an explicit index. -/
def getRandomComic (src : Except String (List Comic)) (randomIndex : Nat) :
    Except String Comic :=
  let attempt : Except String Comic :=
    match getAllComics src with
    | .error e => .error e
    | .ok [] => .error "No comics available"
    | .ok (c :: rest) => .ok ((c :: rest).getD randomIndex default)
  match attempt with
  | .ok c => .ok c
  | .error e =>
    if e = "No comics available" then .error e
    else .error ("Failed to retrieve random comic: " ++ e)

/-- `Array.prototype.findIndex`: index of the first match, or `-1`. -/
def jsFindIndex (p : Comic → Bool) : List Comic → Int
  | [] => -1
  | c :: rest =>
    if p c then 0
    else
      let r := jsFindIndex p rest
      if r = -1 then -1 else r + 1

/-- The `{ previous, next }` result shape of `getAdjacentComics`. -/
structure AdjacentComics where
  previous : Option Comic
  next : Option Comic
deriving DecidableEq

/-- `getAdjacentComics` from `lib/comics.ts`: neighbours of the record with
the given slug in the sorted collection (`previous` is the next-older record
at index `i+1`, `next` the next-newer at `i-1`); an unknown slug yields a
double-`none` success; failures are rewrapped. -/
def getAdjacentComics (src : Except String (List Comic)) (slug : String) :
    Except String AdjacentComics :=
  match getAllComics src with
  | .ok comics =>
    let currentIndex := jsFindIndex (fun comic => comic.slug == slug) comics
    if currentIndex = -1 then .ok ⟨none, none⟩
    else
      .ok ⟨if currentIndex < (comics.length : Int) - 1 then
             some (comics.getD (currentIndex + 1).toNat default) else none,
           if currentIndex > 0 then
             some (comics.getD (currentIndex - 1).toNat default) else none⟩
  | .error e => .error ("Failed to retrieve adjacent comics for \"" ++ slug ++ "\": " ++ e)

/-- `path.basename(p, ext)` (posix): trailing separators dropped, the last
path component taken, and `ext` removed when it is a proper suffix. -/
def jsBasename (p ext : String) : String :=
  let cs := p.data
  let noTrail := (cs.reverse.dropWhile (fun c => c = '/')).reverse
  let base :=
    if noTrail = [] then (if cs = [] then [] else ['/'])
    else (noTrail.reverse.takeWhile (fun c => c ≠ '/')).reverse
  if String.mk base ≠ ext && ext.data.isSuffixOf base then
    String.mk (base.take (base.length - ext.length))
  else String.mk base

/-- The regex replace of pattern `^\d4-\d2-` (four digits, hyphen, two
digits, hyphen) with the empty string, from `extractSlugFromFilename`:
the date prefix is removed from the front when present. -/
def stripDateLead (l : List Char) : List Char :=
  match l with
  | a :: b :: c :: d :: '-' :: e :: f :: '-' :: rest =>
    if a.isDigit && b.isDigit && c.isDigit && d.isDigit && e.isDigit && f.isDigit then rest
    else l
  | _ => l

/-- `extractSlugFromFilename` from `lib/mdx.ts`: basename without the `.mdx`
extension, with a leading `YYYY-MM-` date prefix removed when present. -/
def extractSlugFromFilename (filename : String) : String :=
  String.mk (stripDateLead (jsBasename filename ".mdx").data)

/-- The spec's wording of the date-prefix shape: exactly four digits, a
hyphen, two digits, and a hyphen, at the front of the basename. (Stated
independently of the source to compare the two.) -/
def dateLeadSpec (l : List Char) : Prop :=
  ∃ d1 d2 d3 d4 d5 d6 rest, l = d1 :: d2 :: d3 :: d4 :: '-' :: d5 :: d6 :: '-' :: rest ∧
    d1.isDigit ∧ d2.isDigit ∧ d3.isDigit ∧ d4.isDigit ∧ d5.isDigit ∧ d6.isDigit

/-- Untyped JavaScript values as seen by the frontmatter validator. -/
inductive JValue where
  | str (s : String)
  | num (q : Rat)
  | bool (b : Bool)
  | arr (xs : List JValue)
  | jnull

/-- The Zod type name of a value, for `invalid_type` messages. -/
def JValue.typeName : JValue → String
  | .str _ => "string"
  | .num _ => "number"
  | .bool _ => "boolean"
  | .arr _ => "array"
  | .jnull => "null"

/-- Whether a string matches Zod's default `z.string().datetime()` pattern
`^\d{4}-\d{2}-\d{2}T\d{2}:\d{2}:\d{2}(\.\d+)?Z$` (no range checks). -/
def digitsThenZ : List Char → Bool
  | ['Z'] => true
  | c :: rest => c.isDigit && digitsThenZ rest
  | [] => false

/-- Optional fractional-second part of the Zod datetime pattern: either a
lone `Z` or `.` followed by one or more digits and `Z`. -/
def fracThenZ : List Char → Bool
  | ['Z'] => true
  | '.' :: c :: rest => c.isDigit && digitsThenZ (c :: rest)
  | _ => false

/-- The full Zod `datetime()` pattern check. -/
def isZodDatetime (s : String) : Bool :=
  match s.data with
  | y1 :: y2 :: y3 :: y4 :: '-' :: m1 :: m2 :: '-' :: d1 :: d2 :: 'T' ::
      h1 :: h2 :: ':' :: n1 :: n2 :: ':' :: s1 :: s2 :: rest =>
    [y1, y2, y3, y4, m1, m2, d1, d2, h1, h2, n1, n2, s1, s2].all Char.isDigit &&
      fracThenZ rest
  | _ => false

/-- Whether a character is allowed in a slug (`[a-z0-9]`). -/
def isSlugChar (c : Char) : Bool := ('a' ≤ c && c ≤ 'z') || c.isDigit

/-- Whether a string matches the slug regex `^[a-z0-9]+(?:-[a-z0-9]+)*$`:
split on hyphens, every group nonempty and made of slug characters. -/
def slugOk (s : String) : Bool :=
  (s.splitOn "-").all (fun part => !part.isEmpty && part.data.all isSlugChar)

/-- Issues (path, message) of the `title` field of `ComicFrontmatterSchema`. -/
def titleIssues : Option JValue → List (String × String)
  | none => [("title", "Required")]
  | some (.str s) =>
    (if s.length < 1 then [("title", "Title is required")] else []) ++
      (if s.length > 100 then [("title", "Title must be 100 characters or less")] else [])
  | some v => [("title", "Expected string, received " ++ v.typeName)]

/-- Issues of the `slug` field. -/
def slugIssues : Option JValue → List (String × String)
  | none => [("slug", "Required")]
  | some (.str s) =>
    (if s.length < 1 then [("slug", "Slug is required")] else []) ++
      (if slugOk s then []
       else [("slug", "Slug must be lowercase alphanumeric with hyphens only")])
  | some v => [("slug", "Expected string, received " ++ v.typeName)]

/-- Issues of the `publishDate` field. -/
def publishDateIssues : Option JValue → List (String × String)
  | none => [("publishDate", "Required")]
  | some (.str s) =>
    if isZodDatetime s then []
    else [("publishDate", "Publish date must be a valid ISO 8601 datetime")]
  | some v => [("publishDate", "Expected string, received " ++ v.typeName)]

/-- Issues of the `synopsis` field. -/
def synopsisIssues : Option JValue → List (String × String)
  | none => [("synopsis", "Required")]
  | some (.str s) =>
    (if s.length < 10 then [("synopsis", "Synopsis must be at least 10 characters")] else []) ++
      (if s.length > 300 then [("synopsis", "Synopsis must be 300 characters or less")] else [])
  | some v => [("synopsis", "Expected string, received " ++ v.typeName)]

/-- Issues of one element of the `tags` array, at the given index. -/
def tagElemIssues (i : Nat) : JValue → List (String × String)
  | .str s =>
    (if s.length < 2 then
       [("tags." ++ toString i, "Each tag must be at least 2 characters")] else []) ++
      (if s.length > 20 then
         [("tags." ++ toString i, "Each tag must be 20 characters or less")] else [])
  | v => [("tags." ++ toString i, "Expected string, received " ++ v.typeName)]

/-- Issues of the `tags` field: array size checks, then per-element checks. -/
def tagsIssues : Option JValue → List (String × String)
  | none => [("tags", "Required")]
  | some (.arr xs) =>
    (if xs.length < 1 then [("tags", "At least one tag is required")] else []) ++
      (if xs.length > 5 then [("tags", "Maximum of 5 tags allowed")] else []) ++
      (xs.enum.flatMap fun p => tagElemIssues p.1 p.2)
  | some v => [("tags", "Expected array, received " ++ v.typeName)]

/-- Issues of the `readingTime` field. -/
def readingTimeIssues : Option JValue → List (String × String)
  | none => [("readingTime", "Required")]
  | some (.num q) =>
    (if q.den = 1 then [] else [("readingTime", "Reading time must be an integer")]) ++
      (if 0 < q then [] else [("readingTime", "Reading time must be a positive number")])
  | some v => [("readingTime", "Expected number, received " ++ v.typeName)]

/-- Issues of the `coverImage` field. -/
def coverImageIssues : Option JValue → List (String × String)
  | none => [("coverImage", "Required")]
  | some (.str s) =>
    (if s.length < 1 then [("coverImage", "Cover image is required")] else []) ++
      (if "/comics/".data.isPrefixOf s.data then []
       else [("coverImage", "Cover image path must start with /comics/")])
  | some v => [("coverImage", "Expected string, received " ++ v.typeName)]

/-- Issues of the optional `author` field. -/
def authorIssues : Option JValue → List (String × String)
  | none => []
  | some (.str s) =>
    (if s.length < 1 then [("author", "Author name must be at least 1 character")] else []) ++
      (if s.length > 50 then [("author", "Author name must be 50 characters or less")] else [])
  | some v => [("author", "Expected string, received " ++ v.typeName)]

/-- Issues of the optional `featured` field. -/
def featuredIssues : Option JValue → List (String × String)
  | none => []
  | some (.bool _) => []
  | some v => [("featured", "Expected boolean, received " ++ v.typeName)]

/-- The issues contributed by one named field of the schema. -/
def fieldIssuesFor (f : String) (data : List (String × JValue)) : List (String × String) :=
  if f = "title" then titleIssues (data.lookup "title")
  else if f = "slug" then slugIssues (data.lookup "slug")
  else if f = "publishDate" then publishDateIssues (data.lookup "publishDate")
  else if f = "synopsis" then synopsisIssues (data.lookup "synopsis")
  else if f = "tags" then tagsIssues (data.lookup "tags")
  else if f = "readingTime" then readingTimeIssues (data.lookup "readingTime")
  else if f = "coverImage" then coverImageIssues (data.lookup "coverImage")
  else if f = "author" then authorIssues (data.lookup "author")
  else if f = "featured" then featuredIssues (data.lookup "featured")
  else []

/-- The schema's field names, in declaration order. -/
def schemaFields : List String :=
  ["title", "slug", "publishDate", "synopsis", "tags", "readingTime", "coverImage",
   "author", "featured"]

/-- The mandatory fields of the schema. -/
def requiredFields : List String :=
  ["title", "slug", "publishDate", "synopsis", "tags", "readingTime", "coverImage"]

/-- All issues of a metadata map, fields in schema order (Zod collects every
failing field of an object, not only the first). -/
def allIssues (data : List (String × JValue)) : List (String × String) :=
  schemaFields.flatMap (fun f => fieldIssuesFor f data)

/-- String extraction used when building the validated record. -/
def getStr (v : Option JValue) : String :=
  match v with
  | some (.str s) => s
  | _ => ""

/-- `validateFrontmatter` from `lib/schema.ts`: `ComicFrontmatterSchema.parse`,
failing with the full issue list when any check fails. -/
def validateFrontmatter (data : List (String × JValue)) :
    Except (List (String × String)) ComicFrontmatter :=
  if allIssues data = [] then
    .ok
      { title := getStr (data.lookup "title")
        slug := getStr (data.lookup "slug")
        publishDate := getStr (data.lookup "publishDate")
        synopsis := getStr (data.lookup "synopsis")
        tags :=
          (match data.lookup "tags" with
           | some (.arr xs) => xs.map (fun x => getStr (some x))
           | _ => [])
        readingTime :=
          (match data.lookup "readingTime" with
           | some (.num q) => q.num
           | _ => 0)
        coverImage := getStr (data.lookup "coverImage")
        author :=
          (match data.lookup "author" with
           | some (.str s) => some s
           | _ => none)
        featured :=
          (match data.lookup "featured" with
           | some (.bool b) => some b
           | _ => none) }
  else .error (allIssues data)

/-- `Array.prototype.join(sep)`. -/
def jsJoin (sep : String) : List String → String
  | [] => ""
  | [x] => x
  | x :: rest => x ++ sep ++ jsJoin sep rest

/-- The single diagnostic message `parseMDXFile` builds from the issue list:
`errors.map(err => path + ": " + message).join(', ')`. -/
def validationMessage (issues : List (String × String)) : String :=
  jsJoin ", " (issues.map (fun i => i.1 ++ ": " ++ i.2))

/-- The apostrophe character. -/
def apos : Char := Char.ofNat 39

/-- A JS global single-character replace: `.replace(/c/g, rep)`. -/
def replaceChar (c : Char) (rep : List Char) (s : List Char) : List Char :=
  s.flatMap (fun x => if x = c then rep else [x])

/-- `escapeXML` from `lib/rss.ts`: the five XML metacharacters replaced by
their named entities, ampersand first. -/
def escapeXML (text : String) : String :=
  String.mk
    (replaceChar apos "&apos;".data
      (replaceChar '"' "&quot;".data
        (replaceChar '>' "&gt;".data
          (replaceChar '<' "&lt;".data
            (replaceChar '&' "&amp;".data text.data)))))

/-- The per-character action of the five chained replaces. -/
def escChar (c : Char) : List Char :=
  if c = '&' then "&amp;".data
  else if c = '<' then "&lt;".data
  else if c = '>' then "&gt;".data
  else if c = '"' then "&quot;".data
  else if c = apos then "&apos;".data
  else [c]

/-- `SITE_INFO.title`. -/
def siteTitle : String := "Mumo Comics"

/-- `SITE_INFO.description`. -/
def siteDescription : String :=
  "Weekly short comics featuring the character Mumo exploring technology, streaming, and modern life."

/-- `SITE_INFO.language`. -/
def siteLanguage : String := "en-US"

/-- `SITE_INFO.copyright`, as a function of the current year. -/
def siteCopyright (year : Nat) : String :=
  "Copyright " ++ String.mk (natChars year) ++ " Mumo Comics"

/-- `SITE_INFO.managingEditor`. -/
def managingEditor : String := "editor@mumocomics.com (Mumo Comics Team)"

/-- `SITE_INFO.webMaster`. -/
def webMaster : String := "webmaster@mumocomics.com (Mumo Comics Team)"

/-- `SITE_INFO.category`. -/
def siteCategory : String := "Comics"

/-- JS `a || b` on an optional string: the fallback is used when the string
is missing or empty (empty strings are falsy). -/
def jsOr (a : Option String) (b : String) : String :=
  match a with
  | some s => if s = "" then b else s
  | none => b

/-- `generateRSSItem` from `lib/rss.ts`, with the site base URL passed
explicitly (it comes from the environment in the source). -/
def generateRSSItem (siteUrl : String) (comic : Comic) : String :=
  let title := comic.frontmatter.title
  let link := siteUrl ++ "/comics/" ++ comic.slug
  let imageUrl := siteUrl ++ comic.frontmatter.coverImage
  let description :=
    "\n    <![CDATA[\n      <img src=\"" ++ imageUrl ++ "\" alt=\"" ++ escapeXML title ++
      "\" style=\"max-width: 100%; height: auto;\" />\n      <p>" ++
      escapeXML comic.frontmatter.synopsis ++ "</p>\n      <p><a href=\"" ++ link ++
      "\">Read the full comic</a></p>\n    ]]>\n  "
  "\n    <item>\n      <title>" ++ escapeXML title ++ "</title>\n      <link>" ++ link ++
    "</link>\n      <guid isPermaLink=\"true\">" ++ link ++ "</guid>\n      <description>" ++
    description ++ "</description>\n      <pubDate>" ++
    formatRSSDate (dateVal comic.frontmatter.publishDate) ++ "</pubDate>\n      <author>" ++
    escapeXML (jsOr comic.frontmatter.author managingEditor) ++
    "</author>\n      <category>" ++ siteCategory ++
    "</category>\n      <enclosure url=\"" ++ imageUrl ++
    "\" type=\"image/svg+xml\" />\n    </item>"

/-- `generateRSSFeed` from `lib/rss.ts`: truncates to the first 20 records,
takes the build date from the first record (or the clock when empty), and
renders the channel. The site URL, clock and current year are explicit. -/
def generateRSSFeed (siteUrl : String) (nowMs : Int) (year : Nat)
    (comics : List Comic) : String :=
  let recentComics := comics.take 20
  let lastBuildDate :=
    match recentComics with
    | [] => formatRSSDate nowMs
    | c :: _ => formatRSSDate (dateVal c.frontmatter.publishDate)
  let items := jsJoin "\n" (recentComics.map (generateRSSItem siteUrl))
  "<?xml version=\"1.0\" encoding=\"UTF-8\"?>\n<rss version=\"2.0\" \n     xmlns:atom=\"http://www.w3.org/2005/Atom\"\n     xmlns:content=\"http://purl.org/rss/1.0/modules/content/\"\n     xmlns:dc=\"http://purl.org/dc/elements/1.1/\">\n  <channel>\n    <title>" ++
    escapeXML siteTitle ++ "</title>\n    <link>" ++ siteUrl ++
    "</link>\n    <description>" ++ escapeXML siteDescription ++
    "</description>\n    <language>" ++ siteLanguage ++
    "</language>\n    <copyright>" ++ escapeXML (siteCopyright year) ++
    "</copyright>\n    <managingEditor>" ++ escapeXML managingEditor ++
    "</managingEditor>\n    <webMaster>" ++ escapeXML webMaster ++
    "</webMaster>\n    <lastBuildDate>" ++ lastBuildDate ++
    "</lastBuildDate>\n    <category>" ++ escapeXML siteCategory ++
    "</category>\n    <generator>Mumo Comics RSS Generator</generator>\n    <atom:link href=\"" ++
    siteUrl ++ "/api/rss\" rel=\"self\" type=\"application/rss+xml\" />\n    <image>\n      <url>" ++
    siteUrl ++ "/logo.png</url>\n      <title>" ++ escapeXML siteTitle ++
    "</title>\n      <link>" ++ siteUrl ++ "</link>\n    </image>\n" ++
    items ++ "\n  </channel>\n</rss>"

/-- Whether `pat` occurs as a contiguous run in `s` (JS `includes`). -/
def containsSub (pat s : List Char) : Bool :=
  pat.isPrefixOf s ||
    match s with
    | [] => false
    | _ :: rest => containsSub pat rest

/-- `rssXML.includes(pat)`. -/
def jsIncludes (s pat : String) : Bool := containsSub pat.data s.data

/-- `validateRSSFeed` from `lib/rss.ts`: the companion smoke-test validator
checking the declaration, root element, channel tags and required
channel-level elements by substring presence. -/
def validateRSSFeed (rssXML : String) : Bool :=
  if !(jsIncludes rssXML "<?xml version=\"1.0\"") then false
  else if !(jsIncludes rssXML "<rss version=\"2.0\"") then false
  else if !(jsIncludes rssXML "<channel>") || !(jsIncludes rssXML "</channel>") then false
  else if !(jsIncludes rssXML "</rss>") then false
  else if !(["<title>", "<link>", "<description>"].all (fun e => jsIncludes rssXML e)) then
    false
  else true

/-- Number of start positions of `s` at which `pat` occurs. -/
def countSub (pat s : List Char) : Nat :=
  (if pat.isPrefixOf s then 1 else 0) +
    match s with
    | [] => 0
    | _ :: rest => countSub pat rest

/-- The opening tag of one feed entry. -/
def itemPat : List Char := "<item>".data

/-- Whether the run starts with the tail of one of the five named entities. -/
def entTail (rest : List Char) : Bool :=
  "amp;".data.isPrefixOf rest || "lt;".data.isPrefixOf rest || "gt;".data.isPrefixOf rest ||
    "quot;".data.isPrefixOf rest || "apos;".data.isPrefixOf rest

/-- Escaped-text shape: no raw `<`, `>`, `"` or apostrophe anywhere, and
every ampersand begins one of the five named entities. -/
def escOk : List Char → Bool
  | [] => true
  | c :: rest =>
    (if c = '&' then entTail rest else !(c = '<' || c = '>' || c = '"' || c = apos)) &&
      escOk rest

/-- No suffix of `c` shorter than `itemPat` is a prefix of `itemPat`: an
occurrence of `itemPat` in `c ++ y` cannot straddle the boundary. -/
def noSpanB (c : List Char) : Bool :=
  (List.range c.length).all fun i =>
    !(decide ((c.drop i).length < itemPat.length) && (c.drop i).isPrefixOf itemPat)

/-- The canonical ordering relation of the spec: publish date strictly
later first, equal dates tie-broken by slug ascending. -/
def canonicalRel (x y : Comic) : Prop :=
  dateVal x.frontmatter.publishDate > dateVal y.frontmatter.publishDate ∨
    (dateVal x.frontmatter.publishDate = dateVal y.frontmatter.publishDate ∧
      strLe x.slug y.slug)

/-- A small record builder for concrete instances. -/
def mkComic (slug date : String) : Comic :=
  { frontmatter :=
      { title := "A Mumo Story"
        slug := slug
        publishDate := date
        synopsis := "Mumo tries streaming."
        tags := ["tech"]
        readingTime := 5
        coverImage := "/comics/cover.svg"
        author := none
        featured := none }
    content := "body"
    slug := slug }

/-- Concrete record `a`, oldest (spec scenario, §8.9). -/
def demoA : Comic := mkComic "a" "2024-01-01T00:00:00Z"

/-- Concrete record `b`, newest date, smaller slug (spec scenario, §8.9). -/
def demoB : Comic := mkComic "b" "2024-03-01T00:00:00Z"

/-- Concrete record `c`, newest date, larger slug (spec scenario, §8.9). -/
def demoC : Comic := mkComic "c" "2024-03-01T00:00:00Z"

/-- A record sharing `demoC`'s slug but with different content, for the
duplicate-slug scenario. -/
def demoC2 : Comic :=
  { frontmatter :=
      { title := "Another Mumo Story"
        slug := "c"
        publishDate := "2024-01-01T00:00:00Z"
        synopsis := "Mumo tries podcasts."
        tags := ["life"]
        readingTime := 3
        coverImage := "/comics/cover2.svg"
        author := some "Mumo"
        featured := some true }
    content := "other body"
    slug := "c" }

theorem charListLt_trans (a : List Char) :
    ∀ b c, charListLt a b = true → charListLt b c = true → charListLt a c = true := by
  induction a with
  | nil =>
    intro b c hab hbc
    cases b with
    | nil => simp [charListLt] at hab
    | cons y ys =>
      cases c with
      | nil => simp [charListLt] at hbc
      | cons z zs => simp [charListLt]
  | cons x xs ih =>
    intro b c hab hbc
    cases b with
    | nil => simp [charListLt] at hab
    | cons y ys =>
      cases c with
      | nil => simp [charListLt] at hbc
      | cons z zs =>
        simp only [charListLt] at hab hbc ⊢
        rcases Nat.lt_trichotomy x.toNat y.toNat with h1 | h1 | h1
        · rcases Nat.lt_trichotomy y.toNat z.toNat with h2 | h2 | h2
          · rw [if_pos (by omega)]
          · rw [if_pos (by omega)]
          · rw [if_neg (by omega), if_pos (by omega)] at hbc
            exact absurd hbc (by simp)
        · rw [if_neg (by omega), if_neg (by omega)] at hab
          rcases Nat.lt_trichotomy y.toNat z.toNat with h2 | h2 | h2
          · rw [if_pos (by omega)]
          · rw [if_neg (by omega), if_neg (by omega)] at hbc
            rw [if_neg (by omega), if_neg (by omega)]
            exact ih ys zs hab hbc
          · rw [if_neg (by omega), if_pos (by omega)] at hbc
            exact absurd hbc (by simp)
        · rw [if_neg (by omega), if_pos (by omega)] at hab
          exact absurd hab (by simp)

theorem charListLt_connex (a : List Char) :
    ∀ b, charListLt a b = false → charListLt b a = false → a = b := by
  induction a with
  | nil =>
    intro b h1 _
    cases b with
    | nil => rfl
    | cons y ys => simp [charListLt] at h1
  | cons x xs ih =>
    intro b h1 h2
    cases b with
    | nil => simp [charListLt] at h2
    | cons y ys =>
      simp only [charListLt] at h1 h2
      rcases Nat.lt_trichotomy x.toNat y.toNat with hxy | hxy | hxy
      · rw [if_pos hxy] at h1
        exact absurd h1 (by simp)
      · have hx : x = y := Char.eq_of_val_eq (UInt32.ext hxy)
        rw [if_neg (by omega), if_neg (by omega)] at h1
        rw [if_neg (by omega), if_neg (by omega)] at h2
        rw [hx, ih ys h1 h2]
      · rw [if_pos hxy] at h2
        exact absurd h2 (by simp)

theorem comicLE_iff (a b : Comic) : comicLE a b = true ↔ canonicalRel a b := by
  simp only [comicLE, compareByDateAndSlug, canonicalRel, slugCmp, decide_eq_true_eq]
  by_cases hd : dateVal a.frontmatter.publishDate = dateVal b.frontmatter.publishDate
  · simp only [hd, ne_eq, not_true_eq_false, if_false, gt_iff_lt, lt_self_iff_false,
      true_and, false_or]
    by_cases hlt : strLt a.slug b.slug
    · norm_num [hlt, strLe]
    · by_cases heq : a.slug = b.slug
      · have hle : strLe a.slug b.slug := Or.inr heq
        simp only [hle, iff_true]
        rw [heq]
        split
        · norm_num
        · simp
      · rw [if_neg hlt, if_neg heq]
        constructor
        · intro h
          exact absurd h (by norm_num)
        · intro h
          rcases h with h | h
          · exact absurd h hlt
          · exact absurd h heq
  · simp only [hd, ne_eq, not_false_eq_true, if_true, gt_iff_lt, false_and, or_false]
    omega

theorem strLe_trans {a b c : String} (h1 : strLe a b) (h2 : strLe b c) : strLe a c := by
  rcases h1 with h1 | rfl
  · rcases h2 with h2 | rfl
    · exact Or.inl (charListLt_trans _ _ _ h1 h2)
    · exact Or.inl h1
  · exact h2

theorem comicLE_trans :
    ∀ a b c : Comic, comicLE a b = true → comicLE b c = true → comicLE a c = true := by
  intro a b c hab hbc
  rw [comicLE_iff] at hab hbc ⊢
  rcases hab with h1 | ⟨h1, h1s⟩ <;> rcases hbc with h2 | ⟨h2, h2s⟩
  · left; omega
  · left; omega
  · left; omega
  · exact Or.inr ⟨by omega, strLe_trans h1s h2s⟩

theorem strLe_total (a b : String) : strLe a b ∨ strLe b a := by
  by_cases hab : strLt a b = true
  · exact Or.inl (Or.inl hab)
  · by_cases hba : strLt b a = true
    · exact Or.inr (Or.inl hba)
    · refine Or.inl (Or.inr ?_)
      exact String.ext (charListLt_connex a.data b.data (by simpa [strLt] using hab)
        (by simpa [strLt] using hba))

theorem comicLE_total : ∀ a b : Comic, (comicLE a b || comicLE b a) = true := by
  intro a b
  rw [Bool.or_eq_true, comicLE_iff, comicLE_iff]
  rcases lt_trichotomy (dateVal a.frontmatter.publishDate)
      (dateVal b.frontmatter.publishDate) with h | h | h
  · exact Or.inr (Or.inl h)
  · rcases strLe_total a.slug b.slug with hs | hs
    · exact Or.inl (Or.inr ⟨h, hs⟩)
    · exact Or.inr (Or.inr ⟨h.symm, hs⟩)
  · exact Or.inl (Or.inl h)

theorem sortedComics_pairwise (comics : List Comic) :
    (sortedComics comics).Pairwise (fun a b => comicLE a b = true) := by
  haveI : IsTotal Comic (fun a b => comicLE a b = true) := by
    constructor
    intro a b
    have h := comicLE_total a b
    rw [Bool.or_eq_true] at h
    exact h
  haveI : IsTrans Comic (fun a b => comicLE a b = true) := ⟨comicLE_trans⟩
  exact List.sorted_insertionSort _ comics

theorem sortedComics_perm (comics : List Comic) : (sortedComics comics).Perm comics :=
  List.perm_insertionSort _ comics

/-- C1: for every list of valid comic records handed over by the content
source, the list `getAllComics` returns is sorted canonically: every
adjacent pair has a strictly later publish date first, or equal dates and
slugs in ascending lexicographic order. -/
theorem getAllComics_sorted (comics : List Comic)
    (_hvalid : ∀ c ∈ comics, (parseISO c.frontmatter.publishDate).isSome = true)
    (l : List Comic) (hl : getAllComics (.ok comics) = .ok l) :
    l.Chain' canonicalRel := by
  have hl2 : (Except.ok (sortedComics comics) : Except String (List Comic)) = .ok l := hl
  have hs : sortedComics comics = l := by injection hl2
  rw [← hs]
  exact ((sortedComics_pairwise comics).imp fun h => (comicLE_iff _ _).1 h).chain'

/-- Witness for C1 at the spec's three-record scenario. -/
theorem getAllComics_sorted_witness :
    List.Chain' canonicalRel (sortedComics [demoC, demoA, demoB]) :=
  getAllComics_sorted [demoC, demoA, demoB] (by decide)
    (sortedComics [demoC, demoA, demoB]) rfl

theorem find?_eq_of_first {α : Type _} (p : α → Bool) (l : List α) (i : Nat)
    (hi : i < l.length) (hp : p l[i] = true)
    (hfirst : ∀ j (hj : j < i), p l[j] = false) :
    l.find? p = some l[i] := by
  induction l generalizing i with
  | nil => simp at hi
  | cons x xs ih =>
    cases i with
    | zero =>
      rw [List.getElem_cons_zero] at hp
      simp [List.find?, hp]
    | succ n =>
      have h0 : p x = false := by
        have := hfirst 0 (Nat.succ_pos n)
        rwa [List.getElem_cons_zero] at this
      rw [List.getElem_cons_succ] at hp
      have hn : n < xs.length := by simpa using hi
      rw [List.find?_cons_of_neg _ (by simp [h0]), List.getElem_cons_succ]
      exact ih n hn hp fun j hj => by
        have := hfirst (j + 1) (by omega)
        rwa [List.getElem_cons_succ] at this

theorem jsFindIndex_of_first (p : Comic → Bool) (l : List Comic) (i : Nat)
    (hi : i < l.length) (hp : p l[i] = true)
    (hfirst : ∀ j (hj : j < i), p l[j] = false) :
    jsFindIndex p l = (i : Int) := by
  induction l generalizing i with
  | nil => simp at hi
  | cons x xs ih =>
    cases i with
    | zero =>
      rw [List.getElem_cons_zero] at hp
      simp [jsFindIndex, hp]
    | succ n =>
      have h0 : p x = false := by
        have := hfirst 0 (Nat.succ_pos n)
        rwa [List.getElem_cons_zero] at this
      rw [List.getElem_cons_succ] at hp
      have hn : n < xs.length := by simpa using hi
      have hr : jsFindIndex p xs = (n : Int) := ih n hn hp fun j hj => by
        have := hfirst (j + 1) (by omega)
        rwa [List.getElem_cons_succ] at this
      have hne : (n : Int) ≠ -1 := by omega
      simp only [jsFindIndex, h0, if_false, Bool.false_eq_true, hr, hne]
      push_cast
      ring

theorem jsFindIndex_neg (p : Comic → Bool) (l : List Comic)
    (h : ∀ c ∈ l, p c = false) : jsFindIndex p l = -1 := by
  induction l with
  | nil => rfl
  | cons x xs ih =>
    have hx := h x (List.mem_cons_self x xs)
    have hr := ih fun c hc => h c (List.mem_cons_of_mem x hc)
    simp [jsFindIndex, hx, hr]

/-- C2: over the canonically sorted collection, a slug found at index `i`
yields `previous` = the record at `i + 1` (absent exactly when `i` is last)
and `next` = the record at `i - 1` (absent exactly when `i = 0`); an absent
slug yields a double-absence success, not a failure. -/
theorem getAdjacentComics_spec (comics : List Comic) (slug : String) :
    ((∀ c ∈ sortedComics comics, c.slug ≠ slug) →
      getAdjacentComics (.ok comics) slug = .ok ⟨none, none⟩) ∧
    ∀ i (hi : i < (sortedComics comics).length),
      (sortedComics comics)[i].slug = slug →
      (∀ j (hj : j < i), (sortedComics comics)[j].slug ≠ slug) →
      getAdjacentComics (.ok comics) slug =
        .ok ⟨(sortedComics comics)[i + 1]?,
             if i = 0 then none else (sortedComics comics)[i - 1]?⟩ := by
  constructor
  · intro h
    have hidx : jsFindIndex (fun c => c.slug == slug) (sortedComics comics) = -1 :=
      jsFindIndex_neg _ _ fun c hc => by simpa using h c hc
    simp [getAdjacentComics, getAllComics, hidx]
  · intro i hi hp hfirst
    have hidx : jsFindIndex (fun c => c.slug == slug) (sortedComics comics) = (i : Int) :=
      jsFindIndex_of_first _ _ i hi (by simpa using hp) fun j hj => by
        simpa using hfirst j hj
    have hne : (i : Int) ≠ -1 := by omega
    simp only [getAdjacentComics, getAllComics, hidx, hne, if_false]
    have hprev :
        (if (i : Int) < ((sortedComics comics).length : Int) - 1 then
          some ((sortedComics comics).getD ((i : Int) + 1).toNat default) else none) =
          (sortedComics comics)[i + 1]? := by
      by_cases hlt : i + 1 < (sortedComics comics).length
      · rw [if_pos (by omega), show ((i : Int) + 1).toNat = i + 1 by omega,
          List.getD_eq_getElem _ _ hlt, List.getElem?_eq_getElem hlt]
      · rw [if_neg (by omega), eq_comm]
        exact List.getElem?_eq_none (by omega)
    have hnext :
        (if (i : Int) > 0 then
          some ((sortedComics comics).getD ((i : Int) - 1).toNat default) else none) =
          if i = 0 then none else (sortedComics comics)[i - 1]? := by
      by_cases h0 : i = 0
      · subst h0
        rw [if_neg (by omega), if_pos rfl]
      · have hin : i - 1 < (sortedComics comics).length := by omega
        rw [if_pos (by omega), show ((i : Int) - 1).toNat = i - 1 by omega,
          List.getD_eq_getElem _ _ hin, if_neg h0, List.getElem?_eq_getElem hin]
    rw [hprev, hnext]

/-- Witness for C2 at the spec's three-record scenario, slug "c" at index 1
of the sorted collection. -/
theorem getAdjacentComics_spec_witness :
    getAdjacentComics (.ok [demoC, demoA, demoB]) "c" =
      .ok ⟨(sortedComics [demoC, demoA, demoB])[2]?,
           if 1 = 0 then none else (sortedComics [demoC, demoA, demoB])[0]?⟩ :=
  by
  have hi : 1 < (sortedComics [demoC, demoA, demoB]).length := by decide
  have hp : ((sortedComics [demoC, demoA, demoB]).get ⟨1, by decide⟩).slug = "c" := by decide
  have h0 : ((sortedComics [demoC, demoA, demoB]).get ⟨0, by decide⟩).slug ≠ "c" := by decide
  refine (getAdjacentComics_spec [demoC, demoA, demoB] "c").2 1 hi hp ?_
  intro j hj
  have hj0 : j = 0 := by omega
  subst hj0
  exact h0

/-- C9: when the slug-uniqueness invariant is violated and several records
share a slug, `getComicBySlug` still succeeds and returns the record at the
smallest matching index of the sorted collection. -/
theorem getComicBySlug_first_match (comics : List Comic) (slug : String)
    (_hdup : 2 ≤ (sortedComics comics).countP (fun c => c.slug == slug))
    (i : Nat) (hi : i < (sortedComics comics).length)
    (hp : (sortedComics comics)[i].slug = slug)
    (hfirst : ∀ j (hj : j < i), (sortedComics comics)[j].slug ≠ slug) :
    getComicBySlug (.ok comics) slug = .ok (some (sortedComics comics)[i]) := by
  simp only [getComicBySlug, getAllComics]
  rw [find?_eq_of_first (fun c => c.slug == slug) _ i hi (by simpa using hp)
    fun j hj => by simpa using hfirst j hj]

/-- Witness for C9 on a two-record collection sharing slug "c". -/
theorem getComicBySlug_first_match_witness :
    getComicBySlug (.ok [demoC2, demoC]) "c" = .ok (some demoC) := by
  rw [getComicBySlug_first_match [demoC2, demoC] "c" (by decide) 0 (by decide) (by decide)
    fun j hj => absurd hj (by omega)]
  exact congrArg (fun c => (Except.ok (some c) : Except String (Option Comic))) (by decide)

/-- C3: `getComicsByTag` returns exactly the records whose `tags` list
contains the tag (exact, case-sensitive match), in canonical order as a
sublist of the sorted collection, and the empty list (not a failure) when
nothing matches. -/
theorem getComicsByTag_spec (comics : List Comic) (tag : String) :
    ∃ l, getComicsByTag (.ok comics) tag = .ok l ∧
      (∀ c, c ∈ l ↔ c ∈ comics ∧ tag ∈ c.frontmatter.tags) ∧
      l.Perm (comics.filter (fun c => c.frontmatter.tags.contains tag)) ∧
      l.Sublist (sortedComics comics) ∧
      l.Chain' canonicalRel ∧
      ((∀ c ∈ comics, tag ∉ c.frontmatter.tags) → l = []) := by
  refine ⟨(sortedComics comics).filter (fun c => c.frontmatter.tags.contains tag),
    rfl, ?_, ?_, ?_, ?_, ?_⟩
  · intro c
    rw [List.mem_filter, (sortedComics_perm comics).mem_iff]
    simp
  · exact List.Perm.filter _ (sortedComics_perm comics)
  · exact List.filter_sublist _
  · exact ((List.Pairwise.sublist (List.filter_sublist _)
      (sortedComics_pairwise comics)).imp fun h => (comicLE_iff _ _).1 h).chain'
  · intro h
    rw [List.filter_eq_nil_iff]
    intro c hc
    have hmem : c ∈ comics := (sortedComics_perm comics).mem_iff.mp hc
    simpa using h c hmem

/-- Witness for C3 at a concrete collection and tag. -/
theorem getComicsByTag_spec_witness :
    ∃ l, getComicsByTag (.ok [demoC2, demoA]) "tech" = .ok l ∧
      (∀ c, c ∈ l ↔ c ∈ [demoC2, demoA] ∧ "tech" ∈ c.frontmatter.tags) ∧
      l.Perm ([demoC2, demoA].filter (fun c => c.frontmatter.tags.contains "tech")) ∧
      l.Sublist (sortedComics [demoC2, demoA]) ∧
      l.Chain' canonicalRel ∧
      ((∀ c ∈ [demoC2, demoA], "tech" ∉ c.frontmatter.tags) → l = []) :=
  getComicsByTag_spec [demoC2, demoA] "tech"

/-- C4: `getLatestComic` returns the head of the canonically sorted
collection whenever it is non-empty; on the empty collection the explicit
"No comics available" condition is raised as a failure, and the same policy
is applied by `getRandomComic`. -/
theorem getLatestComic_spec :
    (∀ comics c l, sortedComics comics = c :: l → getLatestComic (.ok comics) = .ok c) ∧
    getLatestComic (.ok ([] : List Comic)) = .error "No comics available" ∧
    ∀ k, getRandomComic (.ok ([] : List Comic)) k = .error "No comics available" := by
  refine ⟨?_, rfl, fun k => rfl⟩
  intro comics c l h
  simp only [getLatestComic, getAllComics, h]

/-- Witness for C4 at the spec's three-record scenario (latest is `b`). -/
theorem getLatestComic_spec_witness :
    getLatestComic (.ok [demoC, demoA, demoB]) = .ok demoB :=
  getLatestComic_spec.1 [demoC, demoA, demoB] demoB [demoC, demoA] (by decide)

/-- C8: every repository operation rewraps an adapter failure into an error
whose message names the operation and, where applicable, the slug or tag
argument; the raw adapter error never escapes unannotated. -/
theorem repository_rewraps_adapter_errors (e slug tag : String) (k : Nat) :
    getAllComics (.error e) = .error ("Failed to retrieve comics: " ++ e) ∧
    getComicBySlug (.error e) slug =
      .error ("Failed to retrieve comic by slug \"" ++ slug ++ "\": " ++
        ("Failed to retrieve comics: " ++ e)) ∧
    getComicsByTag (.error e) tag =
      .error ("Failed to retrieve comics by tag \"" ++ tag ++ "\": " ++
        ("Failed to retrieve comics: " ++ e)) ∧
    getLatestComic (.error e) =
      .error ("Failed to retrieve latest comic: " ++ ("Failed to retrieve comics: " ++ e)) ∧
    getRandomComic (.error e) k =
      .error ("Failed to retrieve random comic: " ++ ("Failed to retrieve comics: " ++ e)) ∧
    getAdjacentComics (.error e) slug =
      .error ("Failed to retrieve adjacent comics for \"" ++ slug ++ "\": " ++
        ("Failed to retrieve comics: " ++ e)) := by
  have hne : "Failed to retrieve comics: " ++ e ≠ "No comics available" := by
    intro h
    have hlen := congrArg String.length h
    have h1 : ("Failed to retrieve comics: " : String).length = 27 := by decide
    have h2 : ("No comics available" : String).length = 19 := by decide
    rw [String.length_append, h1, h2] at hlen
    omega
  refine ⟨rfl, rfl, rfl, ?_, ?_, rfl⟩
  · simp only [getLatestComic, getAllComics, if_neg hne]
  · simp only [getRandomComic, getAllComics, if_neg hne]

theorem stripDateLead_spec (l : List Char) :
    (dateLeadSpec l → stripDateLead l = l.drop 8) ∧
    (¬dateLeadSpec l → stripDateLead l = l) := by
  constructor
  · rintro ⟨d1, d2, d3, d4, d5, d6, rest, rfl, h1, h2, h3, h4, h5, h6⟩
    simp [stripDateLead, h1, h2, h3, h4, h5, h6]
  · intro h
    unfold stripDateLead
    split
    · rename_i a b c d e f rest
      split_ifs with hd
      · exfalso
        simp only [Bool.and_eq_true] at hd
        exact h ⟨a, b, c, d, e, f, rest, rfl, hd.1.1.1.1.1, hd.1.1.1.1.2, hd.1.1.1.2,
          hd.1.1.2, hd.1.2, hd.2⟩
      · rfl
    · rfl

/-- C7: `extractSlugFromFilename` maps `2024-01-mumo-meets-world.mdx` to
`mumo-meets-world` and `no-date-prefix.mdx` to `no-date-prefix`; in general,
after the `.mdx` extension is stripped, a leading prefix of exactly four
digits, a hyphen, two digits and a hyphen is removed when present, and the
basename is returned unchanged otherwise. -/
theorem extractSlugFromFilename_spec :
    extractSlugFromFilename "2024-01-mumo-meets-world.mdx" = "mumo-meets-world" ∧
    extractSlugFromFilename "no-date-prefix.mdx" = "no-date-prefix" ∧
    ∀ f : String,
      (dateLeadSpec (jsBasename f ".mdx").data →
        extractSlugFromFilename f = String.mk ((jsBasename f ".mdx").data.drop 8)) ∧
      (¬dateLeadSpec (jsBasename f ".mdx").data →
        extractSlugFromFilename f = jsBasename f ".mdx") := by
  refine ⟨by decide, by decide, ?_⟩
  intro f
  constructor
  · intro h
    have hs := (stripDateLead_spec (jsBasename f ".mdx").data).1 h
    show String.mk (stripDateLead (jsBasename f ".mdx").data) = _
    rw [hs]
  · intro h
    have hs := (stripDateLead_spec (jsBasename f ".mdx").data).2 h
    show String.mk (stripDateLead (jsBasename f ".mdx").data) = _
    rw [hs]

/-- Witness for C7's general part at a fresh filename with a date prefix. -/
theorem extractSlugFromFilename_spec_witness :
    extractSlugFromFilename "2024-07-new-comic.mdx" =
      String.mk ((jsBasename "2024-07-new-comic.mdx" ".mdx").data.drop 8) :=
  (extractSlugFromFilename_spec.2.2 "2024-07-new-comic.mdx").1
    ⟨'2', '0', '2', '4', '0', '7', "new-comic".data, by decide, by decide, by decide,
      by decide, by decide, by decide, by decide⟩

theorem titleIssues_fst (v : Option JValue) : ∀ i ∈ titleIssues v, i.1 = "title" := by
  intro i hi
  rcases v with _ | w
  · simp only [titleIssues, List.mem_singleton] at hi
    rw [hi]
  · rcases w with s | q | b | xs | _ <;>
      simp only [titleIssues] at hi <;>
      first
      | (rcases List.mem_append.mp hi with h | h <;> split_ifs at h <;> simp_all)
      | (split_ifs at hi <;> simp_all)
      | (rw [List.mem_singleton] at hi; rw [hi])
      | simp_all

theorem slugIssues_fst (v : Option JValue) : ∀ i ∈ slugIssues v, i.1 = "slug" := by
  intro i hi
  rcases v with _ | w
  · simp only [slugIssues, List.mem_singleton] at hi
    rw [hi]
  · rcases w with s | q | b | xs | _ <;>
      simp only [slugIssues] at hi <;>
      first
      | (rcases List.mem_append.mp hi with h | h <;> split_ifs at h <;> simp_all)
      | (split_ifs at hi <;> simp_all)
      | (rw [List.mem_singleton] at hi; rw [hi])
      | simp_all

theorem publishDateIssues_fst (v : Option JValue) :
    ∀ i ∈ publishDateIssues v, i.1 = "publishDate" := by
  intro i hi
  rcases v with _ | w
  · simp only [publishDateIssues, List.mem_singleton] at hi
    rw [hi]
  · rcases w with s | q | b | xs | _ <;>
      simp only [publishDateIssues] at hi <;>
      first
      | (rcases List.mem_append.mp hi with h | h <;> split_ifs at h <;> simp_all)
      | (split_ifs at hi <;> simp_all)
      | (rw [List.mem_singleton] at hi; rw [hi])
      | simp_all

theorem synopsisIssues_fst (v : Option JValue) : ∀ i ∈ synopsisIssues v, i.1 = "synopsis" := by
  intro i hi
  rcases v with _ | w
  · simp only [synopsisIssues, List.mem_singleton] at hi
    rw [hi]
  · rcases w with s | q | b | xs | _ <;>
      simp only [synopsisIssues] at hi <;>
      first
      | (rcases List.mem_append.mp hi with h | h <;> split_ifs at h <;> simp_all)
      | (split_ifs at hi <;> simp_all)
      | (rw [List.mem_singleton] at hi; rw [hi])
      | simp_all

theorem tagElemIssues_fst (n : Nat) (v : JValue) :
    ∀ i ∈ tagElemIssues n v, i.1 = "tags." ++ toString n := by
  intro i hi
  rcases v with s | q | b | xs | _ <;>
    simp only [tagElemIssues] at hi <;>
    first
    | (rcases List.mem_append.mp hi with h | h <;> split_ifs at h <;> simp_all)
    | (split_ifs at hi <;> simp_all)
    | (rw [List.mem_singleton] at hi; rw [hi])
    | simp_all

theorem tagsIssues_fst (v : Option JValue) :
    ∀ i ∈ tagsIssues v, i.1 = "tags" ∨ ∃ n : Nat, i.1 = "tags." ++ toString n := by
  intro i hi
  rcases v with _ | w
  · left
    simp only [tagsIssues, List.mem_singleton] at hi
    rw [hi]
  · rcases w with s | q | b | xs | _
    case arr =>
      simp only [tagsIssues] at hi
      rcases List.mem_append.mp hi with h | h
      · rcases List.mem_append.mp h with h2 | h2 <;> (left; split_ifs at h2 <;> simp_all)
      · right
        obtain ⟨p, hp, hmem⟩ := List.mem_flatMap.mp h
        exact ⟨p.1, tagElemIssues_fst p.1 p.2 i hmem⟩
    all_goals
      left
      simp only [tagsIssues, List.mem_singleton] at hi
      rw [hi]

theorem readingTimeIssues_fst (v : Option JValue) :
    ∀ i ∈ readingTimeIssues v, i.1 = "readingTime" := by
  intro i hi
  rcases v with _ | w
  · simp only [readingTimeIssues, List.mem_singleton] at hi
    rw [hi]
  · rcases w with s | q | b | xs | _ <;>
      simp only [readingTimeIssues] at hi <;>
      first
      | (rcases List.mem_append.mp hi with h | h <;> split_ifs at h <;> simp_all)
      | (split_ifs at hi <;> simp_all)
      | (rw [List.mem_singleton] at hi; rw [hi])
      | simp_all

theorem coverImageIssues_fst (v : Option JValue) :
    ∀ i ∈ coverImageIssues v, i.1 = "coverImage" := by
  intro i hi
  rcases v with _ | w
  · simp only [coverImageIssues, List.mem_singleton] at hi
    rw [hi]
  · rcases w with s | q | b | xs | _ <;>
      simp only [coverImageIssues] at hi <;>
      first
      | (rcases List.mem_append.mp hi with h | h <;> split_ifs at h <;> simp_all)
      | (split_ifs at hi <;> simp_all)
      | (rw [List.mem_singleton] at hi; rw [hi])
      | simp_all

theorem authorIssues_fst (v : Option JValue) : ∀ i ∈ authorIssues v, i.1 = "author" := by
  intro i hi
  rcases v with _ | w
  · simp only [authorIssues] at hi
    exact absurd hi (List.not_mem_nil i)
  · rcases w with s | q | b | xs | _ <;>
      simp only [authorIssues] at hi <;>
      first
      | (rcases List.mem_append.mp hi with h | h <;> split_ifs at h <;> simp_all)
      | (split_ifs at hi <;> simp_all)
      | (rw [List.mem_singleton] at hi; rw [hi])
      | simp_all

theorem featuredIssues_fst (v : Option JValue) : ∀ i ∈ featuredIssues v, i.1 = "featured" := by
  intro i hi
  rcases v with _ | w
  · simp only [featuredIssues] at hi
    exact absurd hi (List.not_mem_nil i)
  · rcases w with s | q | b | xs | _ <;>
      simp only [featuredIssues] at hi <;>
      first
      | (rw [List.mem_singleton] at hi; rw [hi])
      | simp_all

theorem fieldIssuesFor_path (f : String) (data : List (String × JValue)) :
    ∀ i ∈ fieldIssuesFor f data, f.data <+: i.1.data := by
  intro i hi
  unfold fieldIssuesFor at hi
  split_ifs at hi with h1 h2 h3 h4 h5 h6 h7 h8 h9
  · rw [h1, titleIssues_fst _ i hi]
  · rw [h2, slugIssues_fst _ i hi]
  · rw [h3, publishDateIssues_fst _ i hi]
  · rw [h4, synopsisIssues_fst _ i hi]
  · rw [h5]
    rcases tagsIssues_fst _ i hi with h | ⟨n, h⟩
    · rw [h]
    · rw [h]
      have hp : "tags".data <+: "tags.".data := ⟨['.'], by decide⟩
      refine hp.trans ?_
      rw [String.data_append]
      exact List.prefix_append _ _
  · rw [h6, readingTimeIssues_fst _ i hi]
  · rw [h7, coverImageIssues_fst _ i hi]
  · rw [h8, authorIssues_fst _ i hi]
  · rw [h9, featuredIssues_fst _ i hi]
  · exact absurd hi (List.not_mem_nil i)

theorem mem_allIssues (data : List (String × JValue)) (g : String) (i : String × String)
    (hi : i ∈ fieldIssuesFor g data) : i ∈ allIssues data := by
  have hg : g ∈ schemaFields := by
    by_contra hns
    have hnil : fieldIssuesFor g data = [] := by
      unfold fieldIssuesFor
      split_ifs with h1 h2 h3 h4 h5 h6 h7 h8 h9
      · exact absurd (by rw [h1]; simp [schemaFields]) hns
      · exact absurd (by rw [h2]; simp [schemaFields]) hns
      · exact absurd (by rw [h3]; simp [schemaFields]) hns
      · exact absurd (by rw [h4]; simp [schemaFields]) hns
      · exact absurd (by rw [h5]; simp [schemaFields]) hns
      · exact absurd (by rw [h6]; simp [schemaFields]) hns
      · exact absurd (by rw [h7]; simp [schemaFields]) hns
      · exact absurd (by rw [h8]; simp [schemaFields]) hns
      · exact absurd (by rw [h9]; simp [schemaFields]) hns
      · rfl
    rw [hnil] at hi
    exact absurd hi (List.not_mem_nil i)
  exact List.mem_flatMap.mpr ⟨g, hg, hi⟩

theorem mem_jsJoin_infix (sep : String) (l : List String) (s : String) (h : s ∈ l) :
    s.data <:+: (jsJoin sep l).data := by
  induction l with
  | nil => simp at h
  | cons x rest ih =>
    rcases List.mem_cons.mp h with rfl | h2
    · cases rest with
      | nil => exact List.infix_refl _
      | cons y t =>
        show s.data <:+: (s ++ sep ++ jsJoin sep (y :: t)).data
        rw [String.data_append, String.data_append]
        exact ((List.prefix_append s.data sep.data).trans
          (List.prefix_append (s.data ++ sep.data) _)).isInfix
    · cases rest with
      | nil => simp at h2
      | cons y t =>
        show s.data <:+: (x ++ sep ++ jsJoin sep (y :: t)).data
        rw [String.data_append]
        exact (ih h2).trans (List.suffix_append _ _).isInfix

/-- C5: a metadata map missing a mandatory field, or violating a range
constraint of some field, makes `validateFrontmatter` fail with the full
issue list; the joined diagnostic message names the field (the issue path
starts with the field name), and every violated field contributes an issue
to the same single message, not only the first. -/
theorem validateFrontmatter_names_fields (data : List (String × JValue)) (f : String)
    (hviol : fieldIssuesFor f data ≠ []) :
    ∃ es, validateFrontmatter data = .error es ∧
      (∀ g ∈ requiredFields, data.lookup g = none → fieldIssuesFor g data ≠ []) ∧
      (∃ p m, (p, m) ∈ es ∧ f.data <+: p.data ∧
        (p ++ ": " ++ m).data <:+: (validationMessage es).data) ∧
      ∀ g, fieldIssuesFor g data ≠ [] → ∃ p m, (p, m) ∈ es ∧ g.data <+: p.data := by
  have hne : allIssues data ≠ [] := by
    obtain ⟨i0, hi0⟩ := List.exists_mem_of_ne_nil _ hviol
    exact List.ne_nil_of_mem (mem_allIssues data f i0 hi0)
  refine ⟨allIssues data, ?_, ?_, ?_, ?_⟩
  · unfold validateFrontmatter
    rw [if_neg hne]
  · intro g hg hnone
    fin_cases hg <;> simp [fieldIssuesFor, hnone, titleIssues, slugIssues,
      publishDateIssues, synopsisIssues, tagsIssues, readingTimeIssues, coverImageIssues]
  · obtain ⟨⟨p, m⟩, hpm⟩ := List.exists_mem_of_ne_nil _ hviol
    refine ⟨p, m, mem_allIssues data f _ hpm, fieldIssuesFor_path f data _ hpm, ?_⟩
    have hmap : (p ++ ": " ++ m) ∈ (allIssues data).map (fun i => i.1 ++ ": " ++ i.2) := by
      refine List.mem_map.mpr ⟨(p, m), mem_allIssues data f _ hpm, rfl⟩
    exact mem_jsJoin_infix ", " _ _ hmap
  · intro g hg
    obtain ⟨⟨p, m⟩, hpm⟩ := List.exists_mem_of_ne_nil _ hg
    exact ⟨p, m, mem_allIssues data g _ hpm, fieldIssuesFor_path g data _ hpm⟩

/-- Witness for C5: the empty metadata map is missing `title`, and the
validator reports it. -/
theorem validateFrontmatter_names_fields_witness :
    ∃ es, validateFrontmatter [] = .error es ∧
      (∀ g ∈ requiredFields, ([] : List (String × JValue)).lookup g = none →
        fieldIssuesFor g [] ≠ []) ∧
      (∃ p m, (p, m) ∈ es ∧ "title".data <+: p.data ∧
        (p ++ ": " ++ m).data <:+: (validationMessage es).data) ∧
      ∀ g, fieldIssuesFor g [] ≠ [] → ∃ p m, (p, m) ∈ es ∧ g.data <+: p.data :=
  validateFrontmatter_names_fields [] "title" (by decide)

theorem infix_extend_left (pat m rest : List Char) (h : pat <:+: m) : pat <:+: m ++ rest :=
  h.trans (List.prefix_append m rest).isInfix

theorem infix_extend_right (pat pre m : List Char) (h : pat <:+: m) : pat <:+: pre ++ m :=
  h.trans (List.suffix_append pre m).isInfix

theorem containsSub_iff (pat s : List Char) : containsSub pat s = true ↔ pat <:+: s := by
  induction s with
  | nil =>
    simp only [containsSub, Bool.or_false, List.isPrefixOf_iff_prefix, List.prefix_nil,
      List.infix_nil]
  | cons c rest ih =>
    rw [containsSub, Bool.or_eq_true, List.isPrefixOf_iff_prefix, ih, List.infix_cons_iff]

set_option maxRecDepth 8192 in
/-- C10: every document the feed generator produces passes the companion
validator: the XML declaration, rss 2.0 root, channel open and close tags,
closing rss tag, and channel-level title, link and description are present
for every input list, including the empty one. -/
theorem feed_validates (siteUrl : String) (nowMs : Int) (year : Nat)
    (comics : List Comic) :
    validateRSSFeed (generateRSSFeed siteUrl nowMs year comics) = true := by
  have h1 : jsIncludes (generateRSSFeed siteUrl nowMs year comics) "<?xml version=\"1.0\"" = true := by
    rw [jsIncludes, containsSub_iff]
    simp only [generateRSSFeed, String.data_append, List.append_assoc]
    exact infix_extend_left _ _ _ ((containsSub_iff _ _).mp (by decide))
  have h2 : jsIncludes (generateRSSFeed siteUrl nowMs year comics) "<rss version=\"2.0\"" = true := by
    rw [jsIncludes, containsSub_iff]
    simp only [generateRSSFeed, String.data_append, List.append_assoc]
    exact infix_extend_left _ _ _ ((containsSub_iff _ _).mp (by decide))
  have h3 : jsIncludes (generateRSSFeed siteUrl nowMs year comics) "<channel>" = true := by
    rw [jsIncludes, containsSub_iff]
    simp only [generateRSSFeed, String.data_append, List.append_assoc]
    exact infix_extend_left _ _ _ ((containsSub_iff _ _).mp (by decide))
  have h4 : jsIncludes (generateRSSFeed siteUrl nowMs year comics) "</channel>" = true := by
    rw [jsIncludes, containsSub_iff]
    simp only [generateRSSFeed, String.data_append, List.append_assoc]
    iterate 28 apply infix_extend_right
    exact (containsSub_iff _ _).mp (by decide)
  have h5 : jsIncludes (generateRSSFeed siteUrl nowMs year comics) "</rss>" = true := by
    rw [jsIncludes, containsSub_iff]
    simp only [generateRSSFeed, String.data_append, List.append_assoc]
    iterate 28 apply infix_extend_right
    exact (containsSub_iff _ _).mp (by decide)
  have h6 : jsIncludes (generateRSSFeed siteUrl nowMs year comics) "<title>" = true := by
    rw [jsIncludes, containsSub_iff]
    simp only [generateRSSFeed, String.data_append, List.append_assoc]
    exact infix_extend_left _ _ _ ((containsSub_iff _ _).mp (by decide))
  have h7 : jsIncludes (generateRSSFeed siteUrl nowMs year comics) "<link>" = true := by
    rw [jsIncludes, containsSub_iff]
    simp only [generateRSSFeed, String.data_append, List.append_assoc]
    iterate 2 apply infix_extend_right
    exact infix_extend_left _ _ _ ((containsSub_iff _ _).mp (by decide))
  have h8 : jsIncludes (generateRSSFeed siteUrl nowMs year comics) "<description>" = true := by
    rw [jsIncludes, containsSub_iff]
    simp only [generateRSSFeed, String.data_append, List.append_assoc]
    iterate 4 apply infix_extend_right
    exact infix_extend_left _ _ _ ((containsSub_iff _ _).mp (by decide))
  simp only [validateRSSFeed, h1, h2, h3, h4, h5, h6, h7, h8, List.all_cons, List.all_nil,
    Bool.not_true, Bool.and_true, Bool.and_self, Bool.false_eq_true, if_false]
  simp

theorem replaceChar_append (c : Char) (rep a b : List Char) :
    replaceChar c rep (a ++ b) = replaceChar c rep a ++ replaceChar c rep b := by
  simp [replaceChar]

theorem escCharChain (x : Char) :
    replaceChar apos "&apos;".data (replaceChar '"' "&quot;".data (replaceChar '>' "&gt;".data
      (replaceChar '<' "&lt;".data (if x = '&' then "&amp;".data else [x])))) = escChar x := by
  by_cases h1 : x = '&'
  · subst h1
    rw [if_pos rfl]
    decide
  · rw [if_neg h1]
    by_cases h2 : x = '<'
    · subst h2; decide
    · by_cases h3 : x = '>'
      · subst h3; decide
      · by_cases h4 : x = '"'
        · subst h4; decide
        · by_cases h5 : x = apos
          · subst h5; decide
          · simp [replaceChar, escChar, h1, h2, h3, h4, h5]

theorem escapeXML_data (s : String) :
    (escapeXML s).data = s.data.flatMap escChar := by
  show replaceChar apos "&apos;".data (replaceChar '"' "&quot;".data
    (replaceChar '>' "&gt;".data (replaceChar '<' "&lt;".data
      (replaceChar '&' "&amp;".data s.data)))) = _
  generalize s.data = l
  induction l with
  | nil => rfl
  | cons x l ih =>
    rw [show replaceChar '&' "&amp;".data (x :: l) =
      (if x = '&' then "&amp;".data else [x]) ++ replaceChar '&' "&amp;".data l from by
        simp [replaceChar]]
    rw [replaceChar_append, replaceChar_append, replaceChar_append, replaceChar_append]
    rw [escCharChain x, ih, List.flatMap_cons]

theorem escOk_escChar_append (c : Char) (r : List Char) :
    escOk (escChar c ++ r) = escOk r := by
  by_cases h1 : c = '&'
  · subst h1
    show escOk ('&' :: 'a' :: 'm' :: 'p' :: ';' :: r) = escOk r
    simp +decide [escOk, entTail, List.isPrefixOf]
  · by_cases h2 : c = '<'
    · subst h2
      show escOk ('&' :: 'l' :: 't' :: ';' :: r) = escOk r
      simp +decide [escOk, entTail, List.isPrefixOf]
    · by_cases h3 : c = '>'
      · subst h3
        show escOk ('&' :: 'g' :: 't' :: ';' :: r) = escOk r
        simp +decide [escOk, entTail, List.isPrefixOf]
      · by_cases h4 : c = '"'
        · subst h4
          show escOk ('&' :: 'q' :: 'u' :: 'o' :: 't' :: ';' :: r) = escOk r
          simp +decide [escOk, entTail, List.isPrefixOf]
        · by_cases h5 : c = apos
          · subst h5
            show escOk ('&' :: 'a' :: 'p' :: 'o' :: 's' :: ';' :: r) = escOk r
            simp +decide [escOk, entTail, List.isPrefixOf]
          · have he : escChar c = [c] := by simp [escChar, h1, h2, h3, h4, h5]
            rw [he, List.singleton_append, escOk]
            simp [h1, h2, h3, h4, h5]

theorem escOk_escapeXML (s : String) : escOk (escapeXML s).data = true := by
  rw [escapeXML_data]
  generalize s.data = l
  induction l with
  | nil => rfl
  | cons x l ih => rw [List.flatMap_cons, escOk_escChar_append, ih]

theorem not_lt_escChar (c : Char) : '<' ∉ escChar c := by
  by_cases h1 : c = '&'
  · subst h1; decide
  · by_cases h2 : c = '<'
    · subst h2; decide
    · by_cases h3 : c = '>'
      · subst h3; decide
      · by_cases h4 : c = '"'
        · subst h4; decide
        · by_cases h5 : c = apos
          · subst h5; decide
          · simp [escChar, h1, h2, h3, h4, h5]
            exact fun hh => h2 hh.symm

theorem not_lt_escapeXML (s : String) : '<' ∉ (escapeXML s).data := by
  rw [escapeXML_data]
  intro h
  obtain ⟨c, _, hc⟩ := List.mem_flatMap.mp h
  exact not_lt_escChar c hc

theorem digitChar_ne_lt (n : Nat) : digitChar n ≠ '<' := by
  unfold digitChar
  split_ifs <;> decide

theorem not_lt_natChars (n : Nat) : '<' ∉ natChars n := by
  induction n using Nat.strong_induction_on with
  | _ n ih =>
    rw [natChars]
    split_ifs with h
    · intro hm
      rw [List.mem_singleton] at hm
      exact digitChar_ne_lt n hm.symm
    · intro hm
      rcases List.mem_append.mp hm with h2 | h2
      · exact ih (n / 10) (Nat.div_lt_self (by omega) (by omega)) h2
      · rw [List.mem_singleton] at h2
        exact digitChar_ne_lt _ h2.symm

theorem not_lt_padStr (w n : Nat) : '<' ∉ (padStr w n).data := by
  intro h
  rcases List.mem_append.mp h with h2 | h2
  · have := List.eq_of_mem_replicate h2
    exact absurd this (by decide)
  · exact not_lt_natChars n h2

theorem not_lt_getD (l : List String) (d : String) :
    (∀ s ∈ l, '<' ∉ s.data) → '<' ∉ d.data → ∀ i, '<' ∉ (l.getD i d).data := by
  induction l with
  | nil =>
    intro _ hd i
    simpa [List.getD] using hd
  | cons x xs ih =>
    intro hl hd i
    cases i with
    | zero =>
      rw [List.getD_cons_zero]
      exact hl x (List.mem_cons_self x xs)
    | succ j =>
      rw [List.getD_cons_succ]
      exact ih (fun s hs => hl s (List.mem_cons_of_mem x hs)) hd j

theorem not_lt_formatRSSDate (ms : Int) : '<' ∉ (formatRSSDate ms).data := by
  have hwd : ∀ i, '<' ∉ (weekdayNames.getD i "Sun").data :=
    not_lt_getD _ _ (by decide) (by decide)
  have hmo : ∀ i, '<' ∉ (monthNames.getD i "Jan").data :=
    not_lt_getD _ _ (by decide) (by decide)
  have hyear : ∀ y : Int,
      '<' ∉ (if y < 0 then "-" ++ padStr 4 (-y).toNat else padStr 4 y.toNat).data := by
    intro y
    split_ifs
    · rw [String.data_append]
      intro h
      rcases List.mem_append.mp h with h2 | h2
      · exact absurd h2 (by decide)
      · exact not_lt_padStr _ _ h2
    · exact not_lt_padStr _ _
  unfold formatRSSDate
  simp only [String.data_append, List.mem_append, not_or]
  refine ⟨⟨⟨⟨⟨⟨⟨⟨⟨⟨⟨⟨⟨?_, ?_⟩, ?_⟩, ?_⟩, ?_⟩, ?_⟩, ?_⟩, ?_⟩, ?_⟩, ?_⟩, ?_⟩, ?_⟩, ?_⟩, ?_⟩ <;>
    first
    | exact hwd _
    | exact hmo _
    | exact hyear _
    | exact not_lt_padStr _ _
    | decide

theorem countSub_nil : countSub itemPat [] = 0 := rfl

theorem countSub_cons (c : Char) (t : List Char) :
    countSub itemPat (c :: t) =
      (if itemPat.isPrefixOf (c :: t) then 1 else 0) + countSub itemPat t := rfl

theorem countSub_append_of_not_lt (s y : List Char) (h : '<' ∉ s) :
    countSub itemPat (s ++ y) = countSub itemPat y := by
  induction s with
  | nil => rfl
  | cons c s ih =>
    have hc : c ≠ '<' := fun hh => h (hh ▸ List.mem_cons_self c s)
    have hs : '<' ∉ s := fun hh => h (List.mem_cons_of_mem c hh)
    rw [List.cons_append, countSub_cons]
    have hb : ('<' == c) = false := by
      rw [beq_eq_false_iff_ne]
      exact fun hh => hc hh.symm
    have hpre : itemPat.isPrefixOf (c :: (s ++ y)) = false := by
      rw [show itemPat = '<' :: "item>".data from rfl]
      simp [List.isPrefixOf, hb]
    rw [hpre]
    simp only [Bool.false_eq_true, if_false, Nat.zero_add]
    exact ih hs

theorem countSub_of_not_lt (s : List Char) (h : '<' ∉ s) : countSub itemPat s = 0 := by
  have h2 := countSub_append_of_not_lt s [] h
  rw [List.append_nil] at h2
  exact h2

theorem countSub_append_of_noSpan (c y : List Char) (h : noSpanB c = true) :
    countSub itemPat (c ++ y) = countSub itemPat c + countSub itemPat y := by
  induction c with
  | nil => simp [countSub_nil]
  | cons a c ih =>
    have hc : noSpanB c = true := by
      rw [noSpanB, List.all_eq_true] at h ⊢
      intro i hi
      have h2 := h (i + 1) (by
        rw [List.mem_range] at hi ⊢
        simp only [List.length_cons]
        omega)
      simpa [List.drop_succ_cons] using h2
    have h0 : (!(decide (((a :: c).drop 0).length < itemPat.length) &&
        ((a :: c).drop 0).isPrefixOf itemPat)) = true := by
      rw [noSpanB, List.all_eq_true] at h
      exact h 0 (by rw [List.mem_range]; simp)
    rw [List.cons_append, countSub_cons, countSub_cons, ih hc]
    have hiff : itemPat.isPrefixOf (a :: (c ++ y)) = itemPat.isPrefixOf (a :: c) := by
      by_cases hlen : itemPat.length ≤ (a :: c).length
      · cases hb : itemPat.isPrefixOf (a :: c) with
        | true =>
          have hp : itemPat <+: (a :: c) := List.isPrefixOf_iff_prefix.mp hb
          have hp2 : itemPat <+: (a :: (c ++ y)) := by
            rw [← List.cons_append]
            exact hp.trans (List.prefix_append _ _)
          rw [← List.isPrefixOf_iff_prefix] at hp2
          rw [hp2]
        | false =>
          cases hb2 : itemPat.isPrefixOf (a :: (c ++ y)) with
          | false => rfl
          | true =>
            exfalso
            have hp : itemPat <+: (a :: (c ++ y)) := List.isPrefixOf_iff_prefix.mp hb2
            have heq : itemPat = ((a :: c) ++ y).take itemPat.length := by
              rw [List.cons_append]
              exact List.prefix_iff_eq_take.mp hp
            rw [List.take_append_of_le_length hlen] at heq
            have hpc : itemPat <+: (a :: c) := heq ▸ List.take_prefix _ _
            rw [← List.isPrefixOf_iff_prefix, hb] at hpc
            exact Bool.false_ne_true hpc
      · have hlt : (a :: c).length < itemPat.length := by omega
        have hnp : (a :: c).isPrefixOf itemPat = false := by
          by_contra hcon
          rw [Bool.not_eq_false] at hcon
          simp only [List.drop_zero] at h0
          rw [hcon] at h0
          simp at h0
          simp only [List.length_cons] at hlt
          omega
        cases hb2 : itemPat.isPrefixOf (a :: (c ++ y)) with
        | false =>
          cases hb : itemPat.isPrefixOf (a :: c) with
          | false => rfl
          | true =>
            exfalso
            have := (List.isPrefixOf_iff_prefix.mp hb).length_le
            omega
        | true =>
          exfalso
          have hp := List.isPrefixOf_iff_prefix.mp hb2
          have hpe : itemPat = ((a :: c) ++ y).take itemPat.length := by
            rw [List.cons_append]
            exact List.prefix_iff_eq_take.mp hp
          have h1 : itemPat.take (a :: c).length = a :: c := by
            rw [hpe, List.take_take, inf_eq_left.mpr (le_of_lt hlt), List.take_left]
          have hacp : (a :: c) <+: itemPat := by
            rw [← h1]
            exact List.take_prefix _ _
          rw [← List.isPrefixOf_iff_prefix, hnp] at hacp
          exact Bool.false_ne_true hacp
    rw [hiff]
    omega

theorem countSub_append_zero (c y : List Char) (h : noSpanB c = true)
    (h0 : countSub itemPat c = 0) :
    countSub itemPat (c ++ y) = countSub itemPat y := by
  rw [countSub_append_of_noSpan c y h, h0, Nat.zero_add]

theorem countSub_append_one (c y : List Char) (h : noSpanB c = true)
    (h0 : countSub itemPat c = 1) :
    countSub itemPat (c ++ y) = 1 + countSub itemPat y := by
  rw [countSub_append_of_noSpan c y h, h0]

set_option maxRecDepth 8192 in
theorem generateRSSItem_count (siteUrl : String) (c : Comic)
    (hsite : '<' ∉ siteUrl.data) (hslug : '<' ∉ c.slug.data)
    (hcov : '<' ∉ c.frontmatter.coverImage.data) :
    ∀ y, countSub itemPat ((generateRSSItem siteUrl c).data ++ y) =
      1 + countSub itemPat y := by
  intro y
  simp only [generateRSSItem, String.data_append, List.append_assoc]
  rw [countSub_append_one]
  rotate_left
  · decide
  · decide
  rw [countSub_append_of_not_lt _ _ (not_lt_escapeXML _)]
  rw [countSub_append_zero]
  rotate_left
  · decide
  · decide
  rw [countSub_append_of_not_lt _ _ hsite]
  rw [countSub_append_zero]
  rotate_left
  · decide
  · decide
  rw [countSub_append_of_not_lt _ _ hslug]
  rw [countSub_append_zero]
  rotate_left
  · decide
  · decide
  rw [countSub_append_of_not_lt _ _ hsite]
  rw [countSub_append_zero]
  rotate_left
  · decide
  · decide
  rw [countSub_append_of_not_lt _ _ hslug]
  rw [countSub_append_zero]
  rotate_left
  · decide
  · decide
  rw [countSub_append_zero]
  rotate_left
  · decide
  · decide
  rw [countSub_append_of_not_lt _ _ hsite]
  rw [countSub_append_of_not_lt _ _ hcov]
  rw [countSub_append_zero]
  rotate_left
  · decide
  · decide
  rw [countSub_append_of_not_lt _ _ (not_lt_escapeXML _)]
  rw [countSub_append_zero]
  rotate_left
  · decide
  · decide
  rw [countSub_append_of_not_lt _ _ (not_lt_escapeXML _)]
  rw [countSub_append_zero]
  rotate_left
  · decide
  · decide
  rw [countSub_append_of_not_lt _ _ hsite]
  rw [countSub_append_zero]
  rotate_left
  · decide
  · decide
  rw [countSub_append_of_not_lt _ _ hslug]
  rw [countSub_append_zero]
  rotate_left
  · decide
  · decide
  rw [countSub_append_zero]
  rotate_left
  · decide
  · decide
  rw [countSub_append_of_not_lt _ _ (not_lt_formatRSSDate _)]
  rw [countSub_append_zero]
  rotate_left
  · decide
  · decide
  rw [countSub_append_of_not_lt _ _ (not_lt_escapeXML _)]
  rw [countSub_append_zero]
  rotate_left
  · decide
  · decide
  rw [countSub_append_zero]
  rotate_left
  · decide
  · decide
  rw [countSub_append_zero]
  rotate_left
  · decide
  · decide
  rw [countSub_append_of_not_lt _ _ hsite]
  rw [countSub_append_of_not_lt _ _ hcov]
  rw [countSub_append_zero]
  rotate_left
  · decide
  · decide

theorem items_count (siteUrl : String) (hsite : '<' ∉ siteUrl.data) :
    ∀ l : List Comic,
      (∀ c ∈ l, '<' ∉ c.slug.data ∧ '<' ∉ c.frontmatter.coverImage.data) →
      ∀ y, countSub itemPat ((jsJoin "\n" (l.map (generateRSSItem siteUrl))).data ++ y) =
        l.length + countSub itemPat y := by
  intro l
  induction l with
  | nil =>
    intro _ y
    simp [jsJoin]
  | cons c rest ih =>
    intro h y
    cases rest with
    | nil =>
      simp only [List.map_cons, List.map_nil, jsJoin]
      rw [generateRSSItem_count siteUrl c hsite (h c (List.mem_cons_self c [])).1
        (h c (List.mem_cons_self c [])).2 y]
      simp
    | cons c0 t =>
      simp only [List.map_cons, jsJoin]
      rw [String.data_append, String.data_append, List.append_assoc, List.append_assoc]
      rw [generateRSSItem_count siteUrl c hsite (h c (List.mem_cons_self c (c0 :: t))).1
        (h c (List.mem_cons_self c (c0 :: t))).2]
      have hnl : '<' ∉ ("\n" : String).data := by decide
      rw [countSub_append_of_not_lt _ _ hnl]
      have ih2 := ih (fun x hx => h x (List.mem_cons_of_mem c hx)) y
      simp only [List.map_cons] at ih2
      rw [ih2]
      simp only [List.length_cons]
      omega

set_option maxRecDepth 8192 in
/-- C6: for more than 20 records the generated feed carries exactly 20
entries (the string contains exactly 20 occurrences of the item-open tag),
namely the first 20 of the input, and the feed depends only on those 20;
escaped interpolations satisfy the entity discipline: no raw angle
brackets, quotes or apostrophes, and every ampersand starts a named
entity; each entry interpolates the title only through the escaper. -/
theorem generateRSSFeed_bound_and_escaping (siteUrl : String) (nowMs : Int) (year : Nat)
    (comics : List Comic) (h20 : comics.length > 20) (hsite : '<' ∉ siteUrl.data)
    (hrecs : ∀ c ∈ comics.take 20,
      '<' ∉ c.slug.data ∧ '<' ∉ c.frontmatter.coverImage.data) :
    countSub itemPat (generateRSSFeed siteUrl nowMs year comics).data = 20 ∧
    generateRSSFeed siteUrl nowMs year comics =
      generateRSSFeed siteUrl nowMs year (comics.take 20) ∧
    (comics.take 20).length = 20 ∧
    (∀ i, i < 20 → (comics.take 20)[i]? = comics[i]?) ∧
    (∀ t : String, escOk (escapeXML t).data = true) ∧
    (∀ c : Comic, ∃ p q r : List Char,
      (generateRSSItem siteUrl c).data =
        p ++ ((escapeXML c.frontmatter.title).data ++ (q ++
          ((escapeXML c.frontmatter.title).data ++ r)))) := by
  refine ⟨?_, ?_, ?_, ?_, fun t => escOk_escapeXML t, ?_⟩
  · simp only [generateRSSFeed, String.data_append, List.append_assoc]
    rw [countSub_append_zero]
    rotate_left
    · decide
    · decide
    rw [countSub_append_of_not_lt _ _ (not_lt_escapeXML _)]
    rw [countSub_append_zero]
    rotate_left
    · decide
    · decide
    rw [countSub_append_of_not_lt _ _ hsite]
    rw [countSub_append_zero]
    rotate_left
    · decide
    · decide
    rw [countSub_append_of_not_lt _ _ (not_lt_escapeXML _)]
    rw [countSub_append_zero]
    rotate_left
    · decide
    · decide
    rw [countSub_append_zero]
    rotate_left
    · decide
    · decide
    rw [countSub_append_zero]
    rotate_left
    · decide
    · decide
    rw [countSub_append_of_not_lt _ _ (not_lt_escapeXML _)]
    rw [countSub_append_zero]
    rotate_left
    · decide
    · decide
    rw [countSub_append_of_not_lt _ _ (not_lt_escapeXML _)]
    rw [countSub_append_zero]
    rotate_left
    · decide
    · decide
    rw [countSub_append_of_not_lt _ _ (not_lt_escapeXML _)]
    rw [countSub_append_zero]
    rotate_left
    · decide
    · decide
    rw [countSub_append_of_not_lt]
    rotate_left
    · rcases comics.take 20 with _ | ⟨c0, t0⟩
      · exact not_lt_formatRSSDate _
      · exact not_lt_formatRSSDate _
    rw [countSub_append_zero]
    rotate_left
    · decide
    · decide
    rw [countSub_append_of_not_lt _ _ (not_lt_escapeXML _)]
    rw [countSub_append_zero]
    rotate_left
    · decide
    · decide
    rw [countSub_append_of_not_lt _ _ hsite]
    rw [countSub_append_zero]
    rotate_left
    · decide
    · decide
    rw [countSub_append_of_not_lt _ _ hsite]
    rw [countSub_append_zero]
    rotate_left
    · decide
    · decide
    rw [countSub_append_of_not_lt _ _ (not_lt_escapeXML _)]
    rw [countSub_append_zero]
    rotate_left
    · decide
    · decide
    rw [countSub_append_of_not_lt _ _ hsite]
    rw [countSub_append_zero]
    rotate_left
    · decide
    · decide
    rw [items_count siteUrl hsite (comics.take 20) hrecs]
    rw [show countSub itemPat
      ['\n', ' ', ' ', '<', '/', 'c', 'h', 'a', 'n', 'n', 'e', 'l', '>', '\n',
       '<', '/', 'r', 's', 's', '>'] = 0 from by decide]
    simp only [List.length_take]
    omega
  · simp only [generateRSSFeed, List.take_take]
    norm_num
  · simp only [List.length_take]
    omega
  · intro i hi
    rw [List.getElem?_take, if_pos hi]
  · intro c
    refine ⟨("\n    <item>\n      <title>" : String).data,
      ("</title>\n      <link>" ++ (siteUrl ++ "/comics/" ++ c.slug) ++
        "</link>\n      <guid isPermaLink=\"true\">" ++ (siteUrl ++ "/comics/" ++ c.slug) ++
        "</guid>\n      <description>" ++ "\n    <![CDATA[\n      <img src=\"" ++
        (siteUrl ++ c.frontmatter.coverImage) ++ "\" alt=\"").data,
      ("\" style=\"max-width: 100%; height: auto;\" />\n      <p>" ++
        escapeXML c.frontmatter.synopsis ++ "</p>\n      <p><a href=\"" ++
        (siteUrl ++ "/comics/" ++ c.slug) ++ "\">Read the full comic</a></p>\n    ]]>\n  " ++
        "</description>\n      <pubDate>" ++
        formatRSSDate (dateVal c.frontmatter.publishDate) ++ "</pubDate>\n      <author>" ++
        escapeXML (jsOr c.frontmatter.author managingEditor) ++
        "</author>\n      <category>" ++ siteCategory ++
        "</category>\n      <enclosure url=\"" ++ (siteUrl ++ c.frontmatter.coverImage) ++
        "\" type=\"image/svg+xml\" />\n    </item>").data, ?_⟩
    simp only [generateRSSItem, String.data_append, List.append_assoc]

/-- Witness for C6 at a 21-record collection: exactly 20 item-open tags. -/
theorem generateRSSFeed_bound_witness :
    countSub itemPat (generateRSSFeed "http://localhost:3000" 0 2024
      (List.replicate 21 demoA)).data = 20 :=
  (generateRSSFeed_bound_and_escaping "http://localhost:3000" 0 2024
    (List.replicate 21 demoA) (by decide) (by decide) (by decide)).1
